import Mathlib

/-!
Shallow embedding of the BTHome service-data decoder and the packet
admission filter of `FünfMinutenLicht.js`, together with theorems checking
the natural-language specification against it.

Modelling conventions:
* The mJS byte-string buffer is a `List Nat` of byte values (each `< 256`
  where a claim needs the bound); `buffer.at(i)` under an in-bounds guard
  becomes `List.getD i 0`.
* JS dynamic values stored in the decoded-record object are `JVal`
  (booleans, numbers, strings); JS numbers are modelled as exact rationals
  `ℚ`, so a scale factor `0.01` is the rational `1/100`.
* A JS object used as an ordered string-keyed map is an association list
  `List (String × JVal)` with JS assignment semantics (`jsSet`: overwrite
  in place if the key exists, else append) and member access `jsGet`
  (`none` plays the role of `undefined`).
* The `logger` side effect of the decoder loop is made observable as an
  `Option Anomaly` component of the result; the handler invocations of
  `onReceivedPacket` are abstracted to the Boolean "passed the address
  filter and the handlers ran".
-/

namespace FuenfMinutenLicht

/-- A JS runtime value as stored in the decoded record: a boolean, a number
(modelled as an exact rational) or a string. -/
inductive JVal where
  | bool (b : Bool)
  | num (q : ℚ)
  | str (s : String)
deriving DecidableEq, Repr

/-- The decoded record: a JS object, i.e. an ordered association list from
field name to value. -/
abbrev DecodedRecord := List (String × JVal)

/-- JS member access `r[k]`: the value at the first (only) binding of `k`,
`none` when the key is absent (JS `undefined`). -/
def jsGet (r : DecodedRecord) (k : String) : Option JVal :=
  (r.find? (fun p => p.1 == k)).map (·.2)

/-- JS assignment `r[k] = v`: overwrite in place when the key exists,
append otherwise (insertion order is preserved, as in JS objects). -/
def jsSet (r : DecodedRecord) (k : String) (v : JVal) : DecodedRecord :=
  if r.any (fun p => p.1 == k) then
    r.map (fun p => if p.1 == k then (k, v) else p)
  else r ++ [(k, v)]

/-- JS truthiness of a possibly-undefined value. -/
def jsTruthy : Option JVal → Bool
  | none => false
  | some (.bool b) => b
  | some (.num q) => q != 0
  | some (.str s) => s != ""

/-! Type-code constants, from the top of the script. -/

def uint8 : Nat := 0
def int8 : Nat := 1
def uint16 : Nat := 2
def int16 : Nat := 3
def uint24 : Nat := 4
def int24 : Nat := 5

/-- One entry of the `BTH` schema registry: field name `n`, type code `t`,
optional scale factor `f`, optional unit `u`. -/
structure FieldSpec where
  n : String
  t : Nat
  f : Option ℚ := none
  u : Option String := none
deriving DecidableEq, Repr

/-- The `BTH` registry: tag byte to field schema, `none` for unknown tags. -/
def BTH (tag : Nat) : Option FieldSpec :=
  if tag = 0x00 then some { n := "pid", t := uint8 }
  else if tag = 0x01 then some { n := "battery", t := uint8, u := some "%" }
  else if tag = 0x02 then some { n := "temperature", t := int16, f := some (1/100), u := some "tC" }
  else if tag = 0x03 then some { n := "humidity", t := uint16, f := some (1/100), u := some "%" }
  else if tag = 0x05 then some { n := "illuminance", t := uint24, f := some (1/100) }
  else if tag = 0x21 then some { n := "motion", t := uint8 }
  else if tag = 0x2d then some { n := "window", t := uint8 }
  else if tag = 0x3a then some { n := "button", t := uint8 }
  else if tag = 0x3f then some { n := "rotation", t := int16, f := some (1/10) }
  else none

/-- `getByteSize`: number of bytes for a type code; 255 flags an impossible
code. -/
def getByteSize (type : Nat) : Nat :=
  if type = uint8 ∨ type = int8 then 1
  else if type = uint16 ∨ type = int16 then 2
  else if type = uint24 ∨ type = int24 then 3
  else 255

/-- `BTHomeDecoder.utoi`: reinterpret the unsigned value `num` as a
two's-complement integer over `bitsz` bits (`num & mask ? num - (1 << bitsz)
: num`). -/
def utoi (num bitsz : Nat) : Int :=
  if num &&& (1 <<< (bitsz - 1)) ≠ 0 then (num : Int) - ((1 <<< bitsz : Nat) : Int)
  else (num : Int)

/-- `BTHomeDecoder.getUInt8`. -/
def getUInt8 (buffer : List Nat) : Nat := buffer.getD 0 0

/-- `BTHomeDecoder.getInt8`. -/
def getInt8 (buffer : List Nat) : Int := utoi (getUInt8 buffer) 8

/-- `BTHomeDecoder.getUInt16LE`: `0xffff & ((buffer.at(1) << 8) |
buffer.at(0))`. -/
def getUInt16LE (buffer : List Nat) : Nat :=
  0xffff &&& (buffer.getD 1 0 <<< 8 ||| buffer.getD 0 0)

/-- `BTHomeDecoder.getInt16LE`. -/
def getInt16LE (buffer : List Nat) : Int := utoi (getUInt16LE buffer) 16

/-- `BTHomeDecoder.getUInt24LE`: `0x00ffffff & ((buffer.at(2) << 16) |
(buffer.at(1) << 8) | buffer.at(0))`. -/
def getUInt24LE (buffer : List Nat) : Nat :=
  0xffffff &&& (buffer.getD 2 0 <<< 16 ||| buffer.getD 1 0 <<< 8 ||| buffer.getD 0 0)

/-- `BTHomeDecoder.getInt24LE`. -/
def getInt24LE (buffer : List Nat) : Int := utoi (getUInt24LE buffer) 24

/-- `BTHomeDecoder.getBufValue`: `null` (`none`) when fewer bytes remain
than the type's width, otherwise the little-endian read selected by the
type code. -/
def getBufValue (type : Nat) (buffer : List Nat) : Option Int :=
  if buffer.length < getByteSize type then none
  else if type = uint8 then some (getUInt8 buffer)
  else if type = int8 then some (getInt8 buffer)
  else if type = uint16 then some (getUInt16LE buffer)
  else if type = int16 then some (getInt16LE buffer)
  else if type = uint24 then some (getUInt24LE buffer)
  else if type = int24 then some (getInt24LE buffer)
  else none

/-- Why the decoder loop stopped early: the `logger("unknown type", "BTH")`
branch (`UnknownFieldTag`) or a failed `getBufValue` read (`Truncated`). -/
inductive Anomaly where
  | UnknownFieldTag
  | Truncated
deriving DecidableEq, Repr

/-- The `while` loop of `BTHomeDecoder.unpack`, after the header has been
consumed: reads a tag byte, looks it up in `BTH`, reads and scales the
value, and stores it in the record; stops at the end of the buffer, at an
unknown tag, or at a truncated value. -/
def unpackLoop (buffer : List Nat) (result : DecodedRecord) :
    DecodedRecord × Option Anomaly :=
  match buffer with
  | [] => (result, none)
  | tag :: rest =>
    match BTH tag with
    | none => (result, some .UnknownFieldTag)
    | some bth =>
      match getBufValue bth.t rest with
      | none => (result, some .Truncated)
      | some v =>
        let value : ℚ :=
          match bth.f with
          | none => (v : ℚ)
          | some f => (v : ℚ) * f
        unpackLoop (rest.drop (getByteSize bth.t)) (jsSet result bth.n (.num value))
termination_by buffer.length
decreasing_by simp [List.length_drop]; omega

/-- `BTHomeDecoder.unpack`: `none` for an empty buffer or a header whose
version is not 2; for an encrypted payload the record holds only the two
header fields; otherwise the loop result together with its anomaly. -/
def unpack (buffer : List Nat) : Option (DecodedRecord × Option Anomaly) :=
  if buffer.length = 0 then none
  else
    let _dib := buffer.getD 0 0
    let result :=
      jsSet (jsSet [] "encryption" (.bool (_dib &&& 0x1 != 0)))
        "BTHome_version" (.num (_dib >>> 5))
    if _dib >>> 5 ≠ 2 then none
    else if _dib &&& 0x1 ≠ 0 then some (result, none)
    else some (unpackLoop (buffer.drop 1) result)

/-- Number of iterations the `unpackLoop` recursion performs on a buffer
(counting the iteration that breaks early). -/
def unpackLoopSteps (buffer : List Nat) : Nat :=
  match buffer with
  | [] => 0
  | _tag :: rest =>
    match BTH _tag with
    | none => 1
    | some bth =>
      match getBufValue bth.t rest with
      | none => 1
      | some _ => 1 + unpackLoopSteps (rest.drop (getByteSize bth.t))
termination_by buffer.length
decreasing_by simp [List.length_drop]; omega

/-- The admission state `lastPacketId`: a JS variable holding a number or,
after admitting a record without a `pid` field, `undefined` (`none`). -/
abbrev AdmState := Option JVal

/-- Initial value of `lastPacketId`: the sentinel `0x100`, outside the
0–255 range of the 1-byte `pid` field. -/
def lastPacketId0 : AdmState := some (.num 0x100)

/-- The duplicate gate of `BLEScanCallback` (lines `if (lastPacketId ===
unpackedData.pid) return; lastPacketId = unpackedData.pid;`): first
component is `true` when the packet passes (is not a duplicate), second is
the `lastPacketId` value after the call. -/
def admitStep (lastPacketId pid : AdmState) : Bool × AdmState :=
  if lastPacketId = pid then (false, lastPacketId) else (true, pid)

/-- JS `String.prototype.toLowerCase` on the ASCII MAC-address strings the
script handles: lower-case every character. -/
def jsToLowerCase (s : String) : String := ⟨s.data.map Char.toLower⟩

/-- The allow-list preprocessing in `init`: lower-case every configured
address, then keep only the first occurrence of each
(`filter((value, index, array) => array.indexOf(value) === index)`). -/
def processMacs (allowedMacAddresses : List String) : List String :=
  let lowered := allowedMacAddresses.map jsToLowerCase
  ((lowered.enum.filter (fun p => lowered.indexOf p.2 == p.1)).map (·.2))

/-- The configured allow-list of the script (`CONFIG.allowedMacAddresses`). -/
def allowedMacAddresses : List String := ["b0:c7:de:3b:29:15"]

/-- `CONFIG._processedMacAddresses` as computed by `init` from the
configuration above; `none` would model the JS `null` ("allow all"). -/
def cfgProcessedMacAddresses : Option (List String) :=
  some (processMacs allowedMacAddresses)

/-- `onReceivedPacket`, reduced to its observable admission decision:
`true` when the address filter passes (handlers are invoked), `false` when
the packet is dropped because `data.address` is not in the processed
allow-list. -/
def onReceivedPacket (processedMacAddresses : Option (List String))
    (data : DecodedRecord) : Bool :=
  match processedMacAddresses with
  | none => true
  | some allowed =>
    match jsGet data "address" with
    | some (.str a) => allowed.contains a
    | _ => false

/-- The per-scan metadata handed to `BLEScanCallback` by the scanner. -/
structure ScanResult where
  service_data : Option (List Nat)
  rssi : Int
  addr : String

/-- The observable outcome of one `BLEScanCallback` invocation. -/
inductive Outcome where
  | NotScanResult
  | NoServiceData
  | Undecodable
  | Duplicate
  | AddressNotAllowed
  | Admitted
deriving DecidableEq, Repr

/-- `BLEScanCallback`: the full pipeline for one advertisement — service
data presence, `unpack`, encryption rejection, the duplicate gate
(`admitStep`), attachment of `rssi` and `address`, and finally
`onReceivedPacket` with its address filter. Returns the outcome together
with the value of `lastPacketId` after the call. -/
def bleScanCallback (processedMacAddresses : Option (List String))
    (lastPacketId : AdmState) (isScanResult : Bool) (result : ScanResult) :
    Outcome × AdmState :=
  if !isScanResult then (.NotScanResult, lastPacketId)
  else
    match result.service_data with
    | none => (.NoServiceData, lastPacketId)
    | some buf =>
      match unpack buf with
      | none => (.Undecodable, lastPacketId)
      | some (unpackedData, _) =>
        if jsTruthy (jsGet unpackedData "encryption") then (.Undecodable, lastPacketId)
        else
          match admitStep lastPacketId (jsGet unpackedData "pid") with
          | (false, s) => (.Duplicate, s)
          | (true, s) =>
            let data :=
              jsSet (jsSet unpackedData "rssi" (.num result.rssi))
                "address" (.str result.addr)
            if onReceivedPacket processedMacAddresses data then (.Admitted, s)
            else (.AddressNotAllowed, s)


/-! Equation lemmas for the decoder loop (its recursion is well-founded, so
these make the branches available for rewriting). -/

lemma unpackLoop_nil (acc : DecodedRecord) : unpackLoop [] acc = (acc, none) := by
  rw [unpackLoop]

lemma unpackLoop_unknown (tag : Nat) (rest : List Nat) (acc : DecodedRecord)
    (hb : BTH tag = none) :
    unpackLoop (tag :: rest) acc = (acc, some .UnknownFieldTag) := by
  rw [unpackLoop, hb]

lemma unpackLoop_truncated (tag : Nat) (rest : List Nat) (acc : DecodedRecord)
    (s : FieldSpec) (hb : BTH tag = some s) (hv : getBufValue s.t rest = none) :
    unpackLoop (tag :: rest) acc = (acc, some .Truncated) := by
  rw [unpackLoop, hb]
  simp [hv]

lemma unpackLoop_step (tag : Nat) (rest : List Nat) (acc : DecodedRecord)
    (s : FieldSpec) (v : Int) (hb : BTH tag = some s) (hv : getBufValue s.t rest = some v) :
    unpackLoop (tag :: rest) acc =
      unpackLoop (rest.drop (getByteSize s.t))
        (jsSet acc s.n (.num (match s.f with | none => (v : ℚ) | some f => (v : ℚ) * f))) := by
  rw [unpackLoop, hb]
  simp [hv]

/-! Helper facts about the admission filter. -/

lemma processMacs_cfg : processMacs allowedMacAddresses = ["b0:c7:de:3b:29:15"] := by
  decide

lemma admitStep_false (l p s : AdmState) (h : admitStep l p = (false, s)) : s = l := by
  unfold admitStep at h
  split at h <;> simp_all

lemma admitStep_true (l p s : AdmState) (h : admitStep l p = (true, s)) : s = p := by
  unfold admitStep at h
  split at h <;> simp_all

/-! Bitwise arithmetic helpers for the little-endian readers. -/

lemma shiftLeft_lor_eq_add (hi lo n : Nat) (h : lo < 2 ^ n) :
    hi <<< n ||| lo = hi * 2 ^ n + lo := by
  apply Nat.eq_of_testBit_eq
  intro i
  rw [Nat.testBit_lor, Nat.testBit_shiftLeft]
  by_cases hin : n ≤ i
  · have hlo : lo.testBit i = false :=
      Nat.testBit_eq_false_of_lt (lt_of_lt_of_le h (Nat.pow_le_pow_right (by norm_num) hin))
    have hd : decide (i ≥ n) = true := decide_eq_true hin
    rw [hd, hlo]
    simp only [Bool.true_and, Bool.or_false]
    have hlo0 : lo / 2 ^ n = 0 := Nat.div_eq_of_lt h
    have hdiv : (hi * 2 ^ n + lo) / 2 ^ i = hi / 2 ^ (i - n) := by
      have hsplit : (2 : Nat) ^ i = 2 ^ n * 2 ^ (i - n) := by
        rw [← pow_add]
        congr 1
        omega
      rw [hsplit, ← Nat.div_div_eq_div_mul, mul_comm hi, Nat.mul_add_div (by positivity),
        hlo0, Nat.add_zero]
    rw [Nat.testBit_to_div_mod, Nat.testBit_to_div_mod, hdiv]
  · push_neg at hin
    have hd : decide (i ≥ n) = false := decide_eq_false (by omega)
    rw [hd]
    simp only [Bool.false_and, Bool.false_or]
    have hsplit : (2 : Nat) ^ n = 2 ^ i * 2 ^ (n - i) := by
      rw [← pow_add]
      congr 1
      omega
    have hdiv : (hi * 2 ^ n + lo) / 2 ^ i = hi * 2 ^ (n - i) + lo / 2 ^ i := by
      have harg : hi * 2 ^ n + lo = 2 ^ i * (hi * 2 ^ (n - i)) + lo := by
        rw [hsplit]
        ring
      rw [harg, Nat.mul_add_div (by positivity)]
    have hmod : (hi * 2 ^ (n - i) + lo / 2 ^ i) % 2 = lo / 2 ^ i % 2 := by
      have he : hi * 2 ^ (n - i) = 2 * (hi * 2 ^ (n - i - 1)) := by
        have h1 : (2 : Nat) ^ (n - i) = 2 * 2 ^ (n - i - 1) := by
          rw [← pow_succ']
          congr 1
          omega
        rw [h1]
        ring
      rw [he, Nat.mul_add_mod]
    rw [Nat.testBit_to_div_mod, Nat.testBit_to_div_mod, hdiv, hmod]

lemma and_one_shiftLeft_ne_zero_iff (num k : Nat) (h : num < 2 ^ (k + 1)) :
    num &&& (1 <<< k) ≠ 0 ↔ 2 ^ k ≤ num := by
  rw [Nat.shiftLeft_eq, one_mul, Nat.and_two_pow, Nat.testBit_to_div_mod]
  have hdivlt : num / 2 ^ k < 2 := by
    apply Nat.div_lt_of_lt_mul
    rw [← pow_succ]
    exact h
  rcases Nat.lt_or_ge num (2 ^ k) with hlt | hge
  · have h0 : num / 2 ^ k = 0 := Nat.div_eq_of_lt hlt
    simp [h0]
    omega
  · have h1 : num / 2 ^ k = 1 := by
      have : 1 ≤ num / 2 ^ k := (Nat.one_le_div_iff (by positivity)).mpr hge
      omega
    simp [h1, hge]

lemma utoi_eq (num w : Nat) (hw : 1 ≤ w) (h : num < 2 ^ w) :
    utoi num w = if 2 ^ (w - 1) ≤ num then (num : Int) - 2 ^ w else (num : Int) := by
  unfold utoi
  have hiff := and_one_shiftLeft_ne_zero_iff num (w - 1) (by rwa [Nat.sub_add_cancel hw])
  by_cases hc : 2 ^ (w - 1) ≤ num
  · rw [if_pos (hiff.mpr hc), if_pos hc]
    congr 1
    rw [Nat.shiftLeft_eq, one_mul]
    push_cast
    ring
  · rw [if_neg (fun hne => hc (hiff.mp hne)), if_neg hc]


/-- Claim C1, counterexample: with the allow-list configured as
`{"b0:c7:de:3b:29:15"}`, a packet whose source address differs from the
entry only in letter case (`"B0:C7:DE:3B:29:15"`) is NOT admitted — it is
rejected with `AddressNotAllowed`, refuting the claimed case-insensitive
match of the incoming address. -/
theorem c1_counterexample :
    (bleScanCallback cfgProcessedMacAddresses lastPacketId0 true
      ⟨some [0x40, 0x00, 0x05], -50, "B0:C7:DE:3B:29:15"⟩).1 = Outcome.AddressNotAllowed := by
  have hne : lastPacketId0 ≠ some (JVal.num 5) := by
    simp only [lastPacketId0, ne_eq, Option.some.injEq, JVal.num.injEq]
    norm_num
  simp [bleScanCallback, unpack, unpackLoop, BTH, getBufValue, getByteSize, getUInt8,
    jsSet, jsGet, jsTruthy, uint8, admitStep, hne, onReceivedPacket,
    cfgProcessedMacAddresses, processMacs_cfg]

/-- Claim C1, amended: `init` lower-cases the configured allow-list entries,
but the incoming source address is compared literally (case-sensitively)
against that lower-cased list: with the allow-list `{"b0:c7:de:3b:29:15"}`
and a fresh admission state, a valid unencrypted packet is admitted exactly
when its source address is the string `"b0:c7:de:3b:29:15"`; every other
address — including the same address in upper case — is rejected with
`AddressNotAllowed`. -/
theorem c1_address_filter (addr : String) :
    (bleScanCallback cfgProcessedMacAddresses lastPacketId0 true
      ⟨some [0x40, 0x00, 0x05], -50, addr⟩).1 =
    (if addr = "b0:c7:de:3b:29:15" then Outcome.Admitted else Outcome.AddressNotAllowed) := by
  have hne : lastPacketId0 ≠ some (JVal.num 5) := by
    simp only [lastPacketId0, ne_eq, Option.some.injEq, JVal.num.injEq]
    norm_num
  by_cases hc : addr = "b0:c7:de:3b:29:15"
  · subst hc
    simp [bleScanCallback, unpack, unpackLoop, BTH, getBufValue, getByteSize, getUInt8,
      jsSet, jsGet, jsTruthy, uint8, admitStep, hne, onReceivedPacket,
      cfgProcessedMacAddresses, processMacs_cfg]
  · simp [bleScanCallback, unpack, unpackLoop, BTH, getBufValue, getByteSize, getUInt8,
      jsSet, jsGet, jsTruthy, uint8, admitStep, hne, onReceivedPacket,
      cfgProcessedMacAddresses, processMacs_cfg, hc]

/-- Claim C2, counterexample: a packet that the filter rejects with
`AddressNotAllowed` nevertheless mutates the admission state — after the
call `lastPacketId` holds the packet's pid 5, not its previous sentinel
value — refuting the claim that `lastPacketId` is unchanged for every
rejected packet. -/
theorem c2_counterexample :
    (bleScanCallback cfgProcessedMacAddresses lastPacketId0 true
        ⟨some [0x40, 0x00, 0x05], -50, "B0:C7:DE:3B:29:15"⟩).1 = Outcome.AddressNotAllowed ∧
    (bleScanCallback cfgProcessedMacAddresses lastPacketId0 true
        ⟨some [0x40, 0x00, 0x05], -50, "B0:C7:DE:3B:29:15"⟩).2 = some (JVal.num 5) ∧
    some (JVal.num 5) ≠ lastPacketId0 := by
  have hne : lastPacketId0 ≠ some (JVal.num 5) := by
    simp only [lastPacketId0, ne_eq, Option.some.injEq, JVal.num.injEq]
    norm_num
  refine ⟨?_, ?_, fun h => hne h.symm⟩ <;>
    simp [bleScanCallback, unpack, unpackLoop, BTH, getBufValue, getByteSize, getUInt8,
      jsSet, jsGet, jsTruthy, uint8, admitStep, hne, onReceivedPacket,
      cfgProcessedMacAddresses, processMacs_cfg]

/-- Claim C2, amended: `lastPacketId` is unchanged for every packet rejected
before or at the duplicate gate (wrong event type, missing service data,
undecodable or encrypted payload, duplicate pid); it is set to the decoded
record's pid whenever the packet passes the duplicate gate — including when
the packet is subsequently rejected with `AddressNotAllowed`, because the
address filter of `onReceivedPacket` runs after the assignment. -/
theorem c2_mutation (processed : Option (List String)) (last : AdmState)
    (isres : Bool) (r : ScanResult) :
    ((bleScanCallback processed last isres r).1 = Outcome.NotScanResult ∨
     (bleScanCallback processed last isres r).1 = Outcome.NoServiceData ∨
     (bleScanCallback processed last isres r).1 = Outcome.Undecodable ∨
     (bleScanCallback processed last isres r).1 = Outcome.Duplicate →
       (bleScanCallback processed last isres r).2 = last) ∧
    ((bleScanCallback processed last isres r).1 = Outcome.Admitted ∨
     (bleScanCallback processed last isres r).1 = Outcome.AddressNotAllowed →
       ∃ buf rec an, r.service_data = some buf ∧ unpack buf = some (rec, an) ∧
         (bleScanCallback processed last isres r).2 = jsGet rec "pid") := by
  unfold bleScanCallback
  split
  · simp
  · split
    · simp
    · rename_i buf hbuf
      split
      · simp
      · rename_i p unpackedData an heq
        split
        · simp
        · split
          · rename_i s hstep
            have := admitStep_false last (jsGet unpackedData "pid") s hstep
            subst this
            simp
          · rename_i s hstep
            have hs := admitStep_true last (jsGet unpackedData "pid") s hstep
            subst hs
            dsimp only
            split
            · refine ⟨by simp, fun _ => ⟨buf, unpackedData, an, hbuf, heq, by simp⟩⟩
            · refine ⟨by simp, fun _ => ⟨buf, unpackedData, an, hbuf, heq, by simp⟩⟩

/-- Witness for C2's amended theorem at a concrete rejected input: a
non-scan event leaves `lastPacketId` unchanged. -/
theorem c2_mutation_witness :
    (bleScanCallback none lastPacketId0 false ⟨none, 0, ""⟩).2 = lastPacketId0 :=
  (c2_mutation none lastPacketId0 false ⟨none, 0, ""⟩).1 (Or.inl rfl)

/-- Claim C3: the raw bytes `[0x40, 0x00, 0x05, 0x05, 0x6d, 0x00, 0x00]`
(version-2 unencrypted header; pid tag `0x00` with value 5; illuminance tag
`0x05` with 3-byte little-endian value `0x00006d` scaled by 0.01) decode to
the record with `pid = 5` and `illuminance = 1.09` (together with the two
header fields the decoder always records first), with no anomaly. -/
theorem c3_end_to_end :
    unpack [0x40, 0x00, 0x05, 0x05, 0x6d, 0x00, 0x00] =
      some ([("encryption", .bool false), ("BTHome_version", .num 2),
             ("pid", .num 5), ("illuminance", .num (109 / 100))], none) := by
  simp [unpack, unpackLoop, BTH, getBufValue, getByteSize, getUInt8, getUInt24LE,
    jsSet, uint8, uint16, uint24, int8, int16, int24]
  rw [show ((16777215 : Nat) &&& 109) = 109 from by decide]
  norm_num

/-- Claim C4: for every version-2 unencrypted header byte, every tag byte
unknown to the `BTH` registry and every continuation, the payload
`header :: 0x00 :: 0x05 :: unknownTag :: rest` decodes to the partial
record containing `pid = 5` (plus the header fields) — not an empty result
— and the `UnknownFieldTag` anomaly is reported. -/
theorem c4_unknown_tag (hdr tag : Nat) (rest : List Nat)
    (hv : hdr >>> 5 = 2) (he : hdr &&& 0x1 = 0) (hb : BTH tag = none) :
    unpack (hdr :: 0x00 :: 0x05 :: tag :: rest) =
      some ([("encryption", .bool false), ("BTHome_version", .num 2), ("pid", .num 5)],
        some .UnknownFieldTag) := by
  have s0 : BTH 0x00 = some { n := "pid", t := uint8 } := rfl
  have v0 : getBufValue uint8 (0x05 :: tag :: rest) = some 5 := by
    simp [getBufValue, getByteSize, getUInt8, uint8]
  simp [unpack, hv, he, jsSet]
  rw [unpackLoop_step 0 (5 :: tag :: rest) _ _ 5 s0 v0]
  simp only [getByteSize, uint8, int8, uint16, int16, uint24, int24, true_or, ite_true,
    List.drop_succ_cons, List.drop_zero]
  rw [unpackLoop_unknown tag rest _ hb]
  simp [jsSet]

/-- Witness for C4 at the concrete payload `[0x40, 0x00, 0x05, 0xFF]`. -/
theorem c4_witness :
    unpack [0x40, 0x00, 0x05, 0xFF] =
      some ([("encryption", .bool false), ("BTHome_version", .num 2), ("pid", .num 5)],
        some .UnknownFieldTag) := by
  have h := c4_unknown_tag 0x40 0xFF [] (by rfl) (by rfl) (by rfl)
  simpa using h

/-- Claim C5: when a field's declared width exceeds the remaining bytes,
the primitive read `getBufValue` fails with `none` (no zero-fill), and the
decoder loop returns exactly the record accumulated before that field,
reporting `Truncated`. -/
theorem c5_truncated (tag : Nat) (s : FieldSpec) (rest : List Nat) (acc : DecodedRecord)
    (hb : BTH tag = some s) (hlen : rest.length < getByteSize s.t) :
    getBufValue s.t rest = none ∧ unpackLoop (tag :: rest) acc = (acc, some .Truncated) := by
  have hv : getBufValue s.t rest = none := by simp [getBufValue, hlen]
  exact ⟨hv, unpackLoop_truncated tag rest acc s hb hv⟩

/-- Witness for C5: a 2-byte humidity field (tag `0x03`) with only one
trailing byte is dropped and the prior record (here empty) is returned. -/
theorem c5_witness :
    getBufValue 2 [0x01] = none ∧ unpackLoop [0x03, 0x01] [] = ([], some .Truncated) := by
  have h := c5_truncated 0x03 { n := "humidity", t := uint16, f := some (1/100), u := some "%" }
    [0x01] [] rfl (by decide)
  simpa [uint16] using h

/-- Claim C6: for every non-empty buffer whose first byte is a byte value,
if the header's format version (`byte >>> 5`) is not 2 then `unpack`
returns `none`; if the version is 2 and the encryption bit (bit 0) is set,
`unpack` returns a record containing exactly the two header fields — in
neither case does the result contain any decoded measurement field. -/
theorem c6_header_gate (b : Nat) (rest : List Nat) (_hb : b < 256) :
    (b >>> 5 ≠ 2 → unpack (b :: rest) = none) ∧
    (b >>> 5 = 2 → b &&& 0x1 ≠ 0 →
      unpack (b :: rest) =
        some ([("encryption", .bool true), ("BTHome_version", .num 2)], none)) := by
  constructor
  · intro h
    simp [unpack, h]
  · intro hv he
    have he2 : b % 2 = 1 := by
      rw [Nat.and_one_is_mod] at he
      omega
    simp [unpack, hv, he2, jsSet]

/-- Witness for C6 at the concrete header byte `0x20` (version 1): the
version branch applies and `unpack [0x20] = none`. -/
theorem c6_witness :
    (0x20 >>> 5 ≠ 2 → unpack [0x20] = none) ∧
    (0x20 >>> 5 = 2 → 0x20 &&& 0x1 ≠ 0 →
      unpack [0x20] =
        some ([("encryption", .bool true), ("BTHome_version", .num 2)], none)) :=
  c6_header_gate 0x20 [] (by norm_num)

/-- Claim C7: for width `w ∈ {1,2,3}` the signed conversion `utoi` of an
unsigned value below `2^(8w)` subtracts `2^(8w)` exactly when the top bit
is set, landing in `[-2^(8w-1), -1]`, and is the identity (landing in
`[0, 2^(8w-1)-1]`) when the top bit is clear; and the unsigned readers are
little-endian (byte 0 least significant) and non-negative by type. -/
theorem c7_reader_ranges (w u b0 b1 b2 : Nat)
    (hw : w = 1 ∨ w = 2 ∨ w = 3) (hu : u < 2 ^ (8 * w))
    (h0 : b0 < 256) (h1 : b1 < 256) (h2 : b2 < 256) :
    (2 ^ (8 * w - 1) ≤ u →
       utoi u (8 * w) = (u : Int) - 2 ^ (8 * w) ∧
       -(2 ^ (8 * w - 1) : Int) ≤ utoi u (8 * w) ∧ utoi u (8 * w) ≤ -1) ∧
    (u < 2 ^ (8 * w - 1) →
       utoi u (8 * w) = (u : Int) ∧
       0 ≤ utoi u (8 * w) ∧ utoi u (8 * w) ≤ 2 ^ (8 * w - 1) - 1) ∧
    getUInt8 [b0] = b0 ∧
    getUInt16LE [b0, b1] = b0 + 256 * b1 ∧
    getUInt24LE [b0, b1, b2] = b0 + 256 * b1 + 65536 * b2 := by
  have hw1 : 1 ≤ 8 * w := by omega
  have he := utoi_eq u (8 * w) hw1 hu
  refine ⟨?_, ?_, rfl, ?_, ?_⟩
  · intro hc
    rw [he, if_pos hc]
    have hu2 : (u : Int) < 2 ^ (8 * w) := by exact_mod_cast hu
    have hc2 : (2 ^ (8 * w - 1) : Int) ≤ (u : Int) := by exact_mod_cast hc
    have hhalf : (2 : Int) ^ (8 * w) = 2 * 2 ^ (8 * w - 1) := by
      rw [← pow_succ']
      congr 1
      omega
    refine ⟨rfl, by omega, by omega⟩
  · intro hc
    rw [he, if_neg (by omega)]
    have hc2 : (u : Int) < 2 ^ (8 * w - 1) := by exact_mod_cast hc
    refine ⟨rfl, by positivity, by omega⟩
  · show 0xffff &&& (b1 <<< 8 ||| b0) = b0 + 256 * b1
    rw [shiftLeft_lor_eq_add b1 b0 8 (by norm_num; omega)]
    rw [show (0xffff : Nat) = 2 ^ 16 - 1 from by norm_num, Nat.land_comm,
      Nat.and_pow_two_sub_one_eq_mod]
    rw [Nat.mod_eq_of_lt (by norm_num; omega)]
    norm_num
    omega
  · show 0xffffff &&& (b2 <<< 16 ||| b1 <<< 8 ||| b0) = b0 + 256 * b1 + 65536 * b2
    rw [Nat.lor_assoc, shiftLeft_lor_eq_add b1 b0 8 (by norm_num; omega),
      shiftLeft_lor_eq_add b2 (b1 * 2 ^ 8 + b0) 16 (by norm_num; omega)]
    rw [show (0xffffff : Nat) = 2 ^ 24 - 1 from by norm_num, Nat.land_comm,
      Nat.and_pow_two_sub_one_eq_mod]
    rw [Nat.mod_eq_of_lt (by norm_num; omega)]
    norm_num
    omega

/-- Witness for C7 at width 1 with the top-bit-set value 255 and concrete
bytes for the little-endian readers. -/
theorem c7_witness :
    (2 ^ (8 * 1 - 1) ≤ 255 →
       utoi 255 (8 * 1) = (255 : Int) - 2 ^ (8 * 1) ∧
       -(2 ^ (8 * 1 - 1) : Int) ≤ utoi 255 (8 * 1) ∧ utoi 255 (8 * 1) ≤ -1) ∧
    (255 < 2 ^ (8 * 1 - 1) →
       utoi 255 (8 * 1) = (255 : Int) ∧
       0 ≤ utoi 255 (8 * 1) ∧ utoi 255 (8 * 1) ≤ 2 ^ (8 * 1 - 1) - 1) ∧
    getUInt8 [0x6d] = 0x6d ∧
    getUInt16LE [0x6d, 0x01] = 0x6d + 256 * 0x01 ∧
    getUInt24LE [0x6d, 0x01, 0x02] = 0x6d + 256 * 0x01 + 65536 * 0x02 := by
  have h := c7_reader_ranges 1 255 0x6d 0x01 0x02 (by norm_num) (by norm_num)
    (by norm_num) (by norm_num) (by norm_num)
  exact_mod_cast h

/-- Claim C8: from the initial admission state (sentinel `0x100`, outside
0–255), a first call with pid `p < 256` is admitted, a second call with the
same pid is rejected as a duplicate, and a third call with a different pid
`q` is admitted. -/
theorem c8_duplicates (p q : Nat) (hp : p < 256) (hpq : q ≠ p) :
    (admitStep lastPacketId0 (some (.num p))).1 = true ∧
    (admitStep (admitStep lastPacketId0 (some (.num p))).2 (some (.num p))).1 = false ∧
    (admitStep (admitStep (admitStep lastPacketId0 (some (.num p))).2 (some (.num p))).2
        (some (.num q))).1 = true := by
  have h1 : lastPacketId0 ≠ some (JVal.num p) := by
    simp only [lastPacketId0, Option.some.injEq, JVal.num.injEq, ne_eq]
    intro h
    have : (p : ℚ) < 256 := by exact_mod_cast hp
    rw [← h] at this
    norm_num at this
  have h2 : (q : ℚ) ≠ (p : ℚ) := by exact_mod_cast hpq
  simp [admitStep, h1, h2, Ne.symm hpq]

/-- Witness for C8 with pids 5, 5, 6. -/
theorem c8_witness :
    (admitStep lastPacketId0 (some (.num 5))).1 = true ∧
    (admitStep (admitStep lastPacketId0 (some (.num 5))).2 (some (.num 5))).1 = false ∧
    (admitStep (admitStep (admitStep lastPacketId0 (some (.num 5))).2 (some (.num 5))).2
        (some (.num 6))).1 = true := by
  have h := c8_duplicates 5 6 (by norm_num) (by norm_num)
  exact_mod_cast h

/-- Claim C9: a record lacking a `pid` field yields the undefined pid
(`none`), which never equals the sentinel, so the first such record is
admitted and `lastPacketId` becomes undefined; any subsequent record also
lacking `pid` is then rejected as a duplicate (undefined === undefined),
until a record whose pid lookup is defined is admitted again. -/
theorem c9_undefined_pid (r r2 : DecodedRecord) (v : JVal)
    (h : jsGet r "pid" = none) (h2 : jsGet r2 "pid" = none) :
    (admitStep lastPacketId0 (jsGet r "pid")).1 = true ∧
    (admitStep lastPacketId0 (jsGet r "pid")).2 = none ∧
    (admitStep (admitStep lastPacketId0 (jsGet r "pid")).2 (jsGet r2 "pid")).1 = false ∧
    (admitStep none (some v)).1 = true := by
  rw [h, h2]
  simp [admitStep, lastPacketId0]

/-- Witness for C9 with the empty record (which has no `pid` binding). -/
theorem c9_witness :
    (admitStep lastPacketId0 (jsGet [] "pid")).1 = true ∧
    (admitStep lastPacketId0 (jsGet [] "pid")).2 = none ∧
    (admitStep (admitStep lastPacketId0 (jsGet [] "pid")).2 (jsGet [] "pid")).1 = false ∧
    (admitStep none (some (.num 5))).1 = true :=
  c9_undefined_pid [] [] (.num 5) (by simp [jsGet]) (by simp [jsGet])

/-- Claim C10: the decoder loop terminates on every input — its iteration
count (`unpackLoopSteps`, each iteration consuming the tag byte and, on
success, the field's width) is bounded by the length of the remaining
buffer. -/
theorem c10_steps (buffer : List Nat) : unpackLoopSteps buffer ≤ buffer.length := by
  induction buffer using unpackLoopSteps.induct with
  | case1 => simp [unpackLoopSteps]
  | case2 tag rest hb => simp [unpackLoopSteps, hb]
  | case3 tag rest s hb hv => simp [unpackLoopSteps, hb, hv]
  | case4 tag rest s hb v hv ih =>
    rw [unpackLoopSteps, hb]
    simp only [hv]
    have := List.length_drop (getByteSize s.t) rest
    simp [List.length_cons]
    omega

end FuenfMinutenLicht
